import Mathlib

/-!
Verification of the Cosmos wasm event indexer
(`rust/chains/hyperlane-cosmos/src/providers/rpc.rs`) and the connection
configuration (`rust/chains/hyperlane-cosmos/src/trait_builder.rs`) of the
hyperlane monorepo, as a shallow embedding in Lean.

Machine integers are modelled as `Nat` with explicit reduction modulo
`2 ^ w` at the places where the source casts between widths.  Fallible
remote calls are modelled with `Except String`; the one `unwrap` in the
source (inside the per-page handler of `get_range_event_logs`) is modelled
by an outer `Option`: a `none` result means the Rust code would panic.
-/

deriving instance DecidableEq for Except

namespace HyperlaneCosmos

/-- Key/value attribute of an ABCI event (tendermint `EventAttribute`). -/
structure EventAttribute where
  key : String
  value : String
  deriving DecidableEq

/-- An ABCI event (tendermint `abci::Event`): a kind string plus attributes. -/
structure Event where
  kind : String
  attributes : List EventAttribute
  deriving DecidableEq

/-- Execution result of a transaction (the `tx_result` field of a
`tx::Response`): the ABCI response code and the emitted events.  A code of
`0` is success, any other code is an execution failure. -/
structure TxResult where
  code : Nat
  events : List Event
  deriving DecidableEq

/-- One entry of a `tx_search` response (cosmrs `tx::Response`): the
transaction hash (a 256-bit value, modelled as `Nat`), the height of the
block that contains the transaction, the index of the transaction inside
that block, and its execution result. -/
structure TxResponse where
  hash : Nat
  height : Nat
  index : Nat
  tx_result : TxResult
  deriving DecidableEq

/-- tendermint `Code::is_err`: a nonzero ABCI code means the transaction
failed on chain. -/
def codeIsErr (code : Nat) : Bool := code != 0

/-- hyperlane_core `LogMeta`.  `H256` / `H512` / `U256` values are modelled
as natural numbers. -/
structure LogMeta where
  address : Nat
  block_number : Nat
  block_hash : Nat
  transaction_id : Nat
  transaction_index : Nat
  log_index : Nat
  deriving DecidableEq

/-- Cosmos connection configuration (`trait_builder.rs`).  The source names
the last field `prefix`; it is called `hrp` (the bech32 human readable
part) here. -/
structure ConnectionConf where
  grpc_url : String
  rpc_url : String
  chain_id : String
  hrp : String
  deriving DecidableEq

/-- Accessor `ConnectionConf::get_grpc_url`. -/
def ConnectionConf.get_grpc_url (c : ConnectionConf) : String := c.grpc_url

/-- Accessor `ConnectionConf::get_rpc_url`. -/
def ConnectionConf.get_rpc_url (c : ConnectionConf) : String := c.rpc_url

/-- Accessor `ConnectionConf::get_chain_id`. -/
def ConnectionConf.get_chain_id (c : ConnectionConf) : String := c.chain_id

/-- Accessor for the address-encoding prefix (source: `get_prefix`). -/
def ConnectionConf.get_hrp (c : ConnectionConf) : String := c.hrp

/-- Constructor `ConnectionConf::new`: stores the four strings, infallibly. -/
def ConnectionConf.new (grpc_url rpc_url chain_id hrp : String) : ConnectionConf :=
  { grpc_url, rpc_url, chain_id, hrp }

/-- Error type `ConnectionConfError` of `trait_builder.rs`.  The source
names the fourth variant `MissingPrefix`. -/
inductive ConnectionConfError
  | MissingConnectionRpcUrl
  | MissingConnectionGrpcUrl
  | MissingChainId
  | MissingHrp
  | InvalidConnectionUrl (url : String) (cause : String)
  deriving DecidableEq

/-- Display text of each `ConnectionConfError` variant, as written in the
`thiserror` attributes of `trait_builder.rs`. -/
def ConnectionConfError.message : ConnectionConfError → String
  | .MissingConnectionRpcUrl => "Missing `rpc_url` for connection configuration"
  | .MissingConnectionGrpcUrl => "Missing `grpc_url` for connection configuration"
  | .MissingChainId => "Missing `chainId` for connection configuration"
  | .MissingHrp => "Missing `prefix` for connection configuration"
  | .InvalidConnectionUrl u c =>
      "Invalid `url` for connection configuration: `" ++ u ++ "` (" ++ c ++ ")"

/-- Does the list `hay` contain `needle` as a contiguous segment? -/
def containsSeg {α : Type} [BEq α] : List α → List α → Bool
  | [], needle => needle.isEmpty
  | c :: cs, needle => needle.isPrefixOf (c :: cs) || containsSeg cs needle

/-- Modelled URL syntax check standing in for the external `url` /
`tendermint-rpc` URL parsing used by `get_client` and by construction from
raw configuration: a string parses as a URL exactly when it contains a
scheme separator. -/
def parseUrl (s : String) : Except String String :=
  if containsSeg s.data "://".data then .ok s else .error ("relative URL without a base: " ++ s)

/-- Modelled from the spec: construction of a `ConnectionConf` from raw
configuration (the `FromRawConf` implementation is not under `src/`; only
its error type is).  Per spec section 4.5, construction fails with a
distinct named error for each missing required field and with
`InvalidConnectionUrl` carrying the offending URL string and the parse
cause for a syntactically invalid URL. -/
def ConnectionConf.fromRawConf (rpc_url grpc_url chain_id hrp : Option String) :
    Except ConnectionConfError ConnectionConf :=
  match rpc_url with
  | none => .error .MissingConnectionRpcUrl
  | some r =>
    match grpc_url with
    | none => .error .MissingConnectionGrpcUrl
    | some g =>
      match chain_id with
      | none => .error .MissingChainId
      | some c =>
        match hrp with
        | none => .error .MissingHrp
        | some p =>
          match parseUrl r with
          | .error cause => .error (.InvalidConnectionUrl r cause)
          | .ok _ =>
            match parseUrl g with
            | .error cause => .error (.InvalidConnectionUrl g cause)
            | .ok _ => .ok (ConnectionConf.new g r c p)

/-- Digits of a natural number, least significant first, written with the
letters a..j (the first argument is fuel, instantiated with the number
itself). -/
def natToLettersAux : Nat → Nat → List Char
  | 0, _ => []
  | _ + 1, 0 => []
  | fuel + 1, n + 1 => Char.ofNat (97 + (n + 1) % 10) :: natToLettersAux fuel ((n + 1) / 10)

/-- A natural number rendered in the letters a..j, most significant digit
first; never contains the bech32 separator character. -/
def natToLetters (n : Nat) : String :=
  if n = 0 then "a" else String.mk (natToLettersAux n n).reverse

/-- Inverse reading of `natToLetters`. -/
def lettersToNat (s : String) : Nat :=
  s.data.foldl (fun acc c => acc * 10 + (c.toNat - 97)) 0

/-- Modelled from the spec: `verify::digest_to_addr` (file `verify.rs`,
not under `src/`).  Spec section 4.4: the protocol-form 256-bit address is
encoded as chain-native text, a deterministic pure function of the value
and the prefix, failing on an invalid prefix.  The bech32 shape
`hrp ++ separator ++ data` is kept; an empty prefix is the invalid one. -/
def digest_to_addr (digest : Nat) (hrp : String) : Except String String :=
  if hrp = "" then .error "bech32 encode failed: invalid human readable part"
  else .ok (hrp ++ "1" ++ natToLetters digest)

/-- Modelled from the spec: `verify::bech32_decode` (file `verify.rs`, not
under `src/`): reads the data part after the last separator character back
into the protocol-form address. -/
def bech32_decode (s : String) : Nat :=
  lettersToNat (String.mk (s.data.reverse.takeWhile (fun c => c != '1')).reverse)

/-- Modelled from the spec: `binary::h256_to_h512` (not under `src/`):
widens a 256-bit hash to the protocol's 512-bit transaction-id width,
preserving the value. -/
def h256_to_h512 (h : Nat) : Nat := h % 2 ^ 256

/-- Protocol-wide numeric chain identifier (`HyperlaneDomain`). -/
structure HyperlaneDomain where
  id : Nat
  deriving DecidableEq

/-- hyperlane_core `ContractLocator`: a domain plus a protocol-form
contract address. -/
structure ContractLocator where
  domain : HyperlaneDomain
  address : Nat
  deriving DecidableEq

/-- The Cosmos wasm indexer state (`CosmosWasmIndexer` of `rpc.rs`): the
connection configuration, the domain, the protocol-form contract address,
and the configured event subtype. -/
structure CosmosWasmIndexer where
  conf : ConnectionConf
  domain : HyperlaneDomain
  address : Nat
  event_type : String

/-- Constructor `CosmosWasmIndexer::new`: stores the configuration and the
locator's fields; it is infallible and performs no validation. -/
def CosmosWasmIndexer.new (conf : ConnectionConf) (locator : ContractLocator)
    (event_type : String) : CosmosWasmIndexer :=
  { conf, domain := locator.domain, address := locator.address, event_type }

/-- The constant `CosmosWasmIndexer::WASM_TYPE`. -/
def WASM_TYPE : String := "wasm"

/-- tendermint compatibility mode selected by `get_client`. -/
inductive CompatMode
  | V0_34
  | V0_37
  deriving DecidableEq

/-- The RPC client handle built by `get_client`: the parsed URL and the
compatibility mode. -/
structure HttpClient where
  url : String
  compat_mode : CompatMode
  deriving DecidableEq

/-- Method `get_conn_url` of `CosmosWasmIndexer`: returns the configured
RPC url, infallibly wrapped in the chain-result type. -/
def get_conn_url (idx : CosmosWasmIndexer) : Except String String :=
  .ok idx.conf.get_rpc_url

/-- Method `get_contract_addr` of `CosmosWasmIndexer`: converts the stored
protocol-form address with the configured prefix. -/
def get_contract_addr (idx : CosmosWasmIndexer) : Except String String :=
  digest_to_addr idx.address idx.conf.get_hrp

/-- Method `get_client` of the `WasmIndexer` implementation: parse the
connection URL and build a client in 0.34 compatibility mode.  It is a
deterministic function of the indexer's immutable configuration. -/
def get_client (idx : CosmosWasmIndexer) : Except String HttpClient :=
  match get_conn_url idx with
  | .error e => .error e
  | .ok s =>
    match parseUrl s with
    | .error e => .error e
    | .ok u => .ok { url := u, compat_mode := .V0_34 }

/-- One condition of a tendermint search `Query`, as appended by
`and_gte` / `and_lte` / `and_eq`. -/
inductive QueryCondition
  | gte (key : String) (value : Nat)
  | lte (key : String) (value : Nat)
  | eqStr (key : String) (value : String)
  deriving DecidableEq

/-- A tendermint search query: the conjunction of its conditions, in the
order they were appended. -/
structure Query where
  conditions : List QueryCondition
  deriving DecidableEq

/-- The query built by `get_range_event_logs`:
`tx.height >= start AND tx.height <= end AND
 wasm-{event_type}._contract_address = contract_address`. -/
def mkQuery (range : Nat × Nat) (event_type contractAddress : String) : Query :=
  { conditions :=
      [ .gte "tx.height" range.1,
        .lte "tx.height" range.2,
        .eqStr (WASM_TYPE ++ "-" ++ event_type ++ "._contract_address") contractAddress ] }

/-- Result ordering argument of `tx_search`. -/
inductive SearchOrder
  | Ascending
  | Descending
  deriving DecidableEq

/-- A `tx_search` response: the page of matching transactions and the total
match count across all pages. -/
structure TxSearchResponse where
  txs : List TxResponse
  total_count : Nat
  deriving DecidableEq

/-- The remote node, abstracted: `tx_search` takes the client, the query,
the `prove` flag, the page number, the page size and the order;
`latest_block` reports the chain head height (a 64-bit value). -/
structure Backend where
  tx_search : HttpClient → Query → Bool → Nat → Nat → SearchOrder →
    Except String TxSearchResponse
  latest_block : HttpClient → Except String Nat

/-- The constant `PAGINATION_LIMIT` of `rpc.rs`. -/
def PAGINATION_LIMIT : Nat := 100

/-- `latest_block_height` of the `WasmIndexer` implementation: the node's
64-bit head height cast to `u32`, i.e. reduced modulo `2 ^ 32`. -/
def latest_block_height (idx : CosmosWasmIndexer) (backend : Backend) :
    Except String Nat :=
  match get_client idx with
  | .error e => .error e
  | .ok client =>
    match backend.latest_block client with
    | .error e => .error e
    | .ok h => .ok (h % 2 ^ 32)

/-- The event-kind string events are filtered by:
`format!("{}-{}", WASM_TYPE, event_type)`. -/
def targetType (idx : CosmosWasmIndexer) : String :=
  WASM_TYPE ++ "-" ++ idx.event_type

/-- The `LogMeta` synthesized for a kept event of `tx` at position `logIdx`
of the transaction's event list (lines 139-147 of `rpc.rs`): the contract
address decoded back from its text form, the transaction's block height,
the documented zero-hash placeholder for the unavailable block hash, the
transaction hash widened to 512 bits, the transaction's index in its
block, and the event position. -/
def mkMeta (contractAddress : String) (tx : TxResponse) (logIdx : Nat) : LogMeta :=
  { address := bech32_decode contractAddress
    block_number := tx.height
    block_hash := 0
    transaction_id := h256_to_h512 tx.hash
    transaction_index := tx.index
    log_index := logIdx }

/-- The per-transaction body of the `handler` closure: skip the whole
transaction when its execution failed; otherwise walk its events in
enumeration order, keep those whose kind equals the target type and whose
parse succeeds, and accumulate `(message, meta)` pairs. -/
def txContribution {T : Type} (contractAddress target : String)
    (parser : List EventAttribute → Option T) (tx : TxResponse) : List (T × LogMeta) :=
  if codeIsErr tx.tx_result.code then []
  else
    tx.tx_result.events.enum.foldl
      (fun acc p =>
        if p.2.kind == target then
          match parser p.2.attributes with
          | some msg => acc ++ [(msg, mkMeta contractAddress tx p.1)]
          | none => acc
        else acc) []

/-- The accumulation of the `handler` closure over one page of
transactions, with the fallible parts already discharged. -/
def handlerPure {T : Type} (contractAddress target : String)
    (parser : List EventAttribute → Option T) (txs : List TxResponse) :
    List (T × LogMeta) :=
  txs.foldl (fun acc tx => acc ++ txContribution contractAddress target parser tx) []

/-- The `handler` closure of `get_range_event_logs`: it re-runs
`get_client` and unwraps the result (line 126 of `rpc.rs`); a `none`
models the panic of that `unwrap`. -/
def handler {T : Type} (idx : CosmosWasmIndexer) (contractAddress : String)
    (parser : List EventAttribute → Option T) (txs : List TxResponse) :
    Option (List (T × LogMeta)) :=
  match get_client idx with
  | .error _ => none
  | .ok _ => some (handlerPure contractAddress (targetType idx) parser txs)

/-- The page count computed from a total match count:
`total_count / PAGINATION_LIMIT + (total_count % PAGINATION_LIMIT != 0)`. -/
def lastPageOf (total_count : Nat) : Nat :=
  total_count / PAGINATION_LIMIT +
    (if total_count % PAGINATION_LIMIT != 0 then 1 else 0)

/-- The page numbers visited by the loop `for page in 2..=last_page`. -/
def pagesList (total_count : Nat) : List Nat :=
  List.range' 2 (lastPageOf total_count - 1)

/-- The tail of `get_range_event_logs`: fetch each remaining page with the
same query, run the handler on it, and extend the accumulator; an error of
any fetch is returned as is, a handler panic propagates as `none`. -/
def runPages {T : Type} (idx : CosmosWasmIndexer) (backend : Backend)
    (client : HttpClient) (query : Query) (contractAddress : String)
    (parser : List EventAttribute → Option T) :
    List Nat → List (T × LogMeta) → Option (Except String (List (T × LogMeta)))
  | [], acc => some (.ok acc)
  | page :: rest, acc =>
    match backend.tx_search client query false page PAGINATION_LIMIT .Ascending with
    | .error e => some (.error e)
    | .ok res =>
      match handler idx contractAddress parser res.txs with
      | none => none
      | some r => runPages idx backend client query contractAddress parser rest (acc ++ r)

/-- `get_range_event_logs` of the `WasmIndexer` implementation: build the
client and the contract address, issue the first `tx_search` (page 1, page
size `PAGINATION_LIMIT`, ascending), compute the page count from the
response's total match count, run the handler on the first page, then
fetch pages `2..=last_page` with the identical query, accumulating in page
order.  The outer `Option` is `none` exactly when the `unwrap` inside the
handler would panic. -/
def get_range_event_logs {T : Type} (idx : CosmosWasmIndexer) (backend : Backend)
    (range : Nat × Nat) (parser : List EventAttribute → Option T) :
    Option (Except String (List (T × LogMeta))) :=
  match get_client idx with
  | .error e => some (.error e)
  | .ok client =>
    match get_contract_addr idx with
    | .error e => some (.error e)
    | .ok contractAddress =>
      match backend.tx_search client (mkQuery range idx.event_type contractAddress)
          false 1 PAGINATION_LIMIT .Ascending with
      | .error e => some (.error e)
      | .ok tx_search_result =>
        match handler idx contractAddress parser tx_search_result.txs with
        | none => none
        | some r =>
          runPages idx backend client (mkQuery range idx.event_type contractAddress)
            contractAddress parser (pagesList tx_search_result.total_count) r

/-! ### Composite keys and ordering relations -/

/-- Strict ascending order of transactions in on-chain execution order:
lexicographic on (block height, index within block). -/
def txKeyLT (a b : TxResponse) : Prop :=
  a.height < b.height ∨ (a.height = b.height ∧ a.index < b.index)

/-- Strict ascending order of the composite key
`(block_number, transaction_index, log_index)` of a `LogMeta`. -/
def metaKeyLT (x y : LogMeta) : Prop :=
  x.block_number < y.block_number ∨
    (x.block_number = y.block_number ∧
      (x.transaction_index < y.transaction_index ∨
        (x.transaction_index = y.transaction_index ∧ x.log_index < y.log_index)))

instance (a b : TxResponse) : Decidable (txKeyLT a b) := by
  unfold txKeyLT; infer_instance

instance (x y : LogMeta) : Decidable (metaKeyLT x y) := by
  unfold metaKeyLT; infer_instance

/-- What the handler keeps of the enumerated event `p` of transaction
`tx`: the parsed message paired with its synthesized metadata, when the
kind matches and the parse succeeds. -/
def keepEvent {T : Type} (contractAddress target : String)
    (parser : List EventAttribute → Option T) (tx : TxResponse) (p : Nat × Event) :
    Option (T × LogMeta) :=
  if p.2.kind == target then
    (parser p.2.attributes).map (fun msg => (msg, mkMeta contractAddress tx p.1))
  else none

/-! ### Characterization of the per-transaction accumulation -/

/-- A left fold whose step appends what an option-valued selector yields is
the accumulator followed by the `filterMap` of the selector. -/
theorem foldl_opt_eq {α β : Type} (step : List β → α → List β) (g : α → Option β)
    (hstep : ∀ acc x, step acc x = acc ++ (g x).toList) :
    ∀ (l : List α) (acc : List β), l.foldl step acc = acc ++ l.filterMap g := by
  intro l
  induction l with
  | nil => intro acc; simp
  | cons x xs ih =>
    intro acc
    rw [List.foldl_cons, hstep, ih, List.filterMap_cons]
    cases hg : g x <;> simp [List.append_assoc]

/-- A failed transaction contributes nothing, unconditionally. -/
theorem txContribution_err {T : Type} (contractAddress target : String)
    (parser : List EventAttribute → Option T) (tx : TxResponse)
    (h : codeIsErr tx.tx_result.code = true) :
    txContribution contractAddress target parser tx = [] := by
  simp [txContribution, h]

/-- A successful transaction contributes exactly the kept events, in event
order. -/
theorem txContribution_eq {T : Type} (contractAddress target : String)
    (parser : List EventAttribute → Option T) (tx : TxResponse)
    (h : codeIsErr tx.tx_result.code = false) :
    txContribution contractAddress target parser tx =
      tx.tx_result.events.enum.filterMap (keepEvent contractAddress target parser tx) := by
  have hstep : ∀ (acc : List (T × LogMeta)) (p : Nat × Event),
      (if p.2.kind == target then
        match parser p.2.attributes with
        | some msg => acc ++ [(msg, mkMeta contractAddress tx p.1)]
        | none => acc
      else acc)
        = acc ++ (keepEvent contractAddress target parser tx p).toList := by
    intro acc p
    by_cases hk : (p.2.kind == target) = true
    · cases hp : parser p.2.attributes <;> simp [keepEvent, hk, hp]
    · simp [keepEvent, hk]
  simp only [txContribution, h, Bool.false_eq_true, if_false]
  simpa using foldl_opt_eq _ _ hstep tx.tx_result.events.enum []

theorem handlerPure_foldl_eq {T : Type} (contractAddress target : String)
    (parser : List EventAttribute → Option T) :
    ∀ (txs : List TxResponse) (acc : List (T × LogMeta)),
      txs.foldl (fun acc tx => acc ++ txContribution contractAddress target parser tx) acc
        = acc ++ (txs.map (txContribution contractAddress target parser)).flatten := by
  intro txs
  induction txs with
  | nil => intro acc; simp
  | cons t ts ih => intro acc; simp [ih, List.append_assoc]

theorem handlerPure_eq {T : Type} (contractAddress target : String)
    (parser : List EventAttribute → Option T) (txs : List TxResponse) :
    handlerPure contractAddress target parser txs
      = (txs.map (txContribution contractAddress target parser)).flatten := by
  simpa [handlerPure] using handlerPure_foldl_eq contractAddress target parser txs []

theorem handlerPure_append {T : Type} (contractAddress target : String)
    (parser : List EventAttribute → Option T) (a b : List TxResponse) :
    handlerPure contractAddress target parser (a ++ b)
      = handlerPure contractAddress target parser a
        ++ handlerPure contractAddress target parser b := by
  simp [handlerPure_eq]

theorem handlerPure_flatten {T : Type} (contractAddress target : String)
    (parser : List EventAttribute → Option T) (ls : List (List TxResponse)) :
    handlerPure contractAddress target parser ls.flatten
      = (ls.map (handlerPure contractAddress target parser)).flatten := by
  induction ls with
  | nil => simp [handlerPure]
  | cons l ls ih => simp [handlerPure_append, ih]

/-- Deleting the failed transactions from the input does not change the
accumulated result. -/
theorem handlerPure_filter_err {T : Type} (contractAddress target : String)
    (parser : List EventAttribute → Option T) (txs : List TxResponse) :
    handlerPure contractAddress target parser txs
      = handlerPure contractAddress target parser
          (txs.filter (fun t => !codeIsErr t.tx_result.code)) := by
  induction txs with
  | nil => rfl
  | cons t ts ih =>
    have hcons : ∀ l, handlerPure contractAddress target parser (t :: l)
        = txContribution contractAddress target parser t
          ++ handlerPure contractAddress target parser l := by
      intro l; simp [handlerPure_eq]
    cases h : codeIsErr t.tx_result.code with
    | false =>
      rw [List.filter_cons_of_pos (by simp [h]), hcons, hcons, ih]
    | true =>
      rw [List.filter_cons_of_neg (by simp [h]), hcons,
        txContribution_err contractAddress target parser t h, List.nil_append, ih]

theorem mem_handlerPure {T : Type} {contractAddress target : String}
    {parser : List EventAttribute → Option T} {txs : List TxResponse}
    {p : T × LogMeta} (h : p ∈ handlerPure contractAddress target parser txs) :
    ∃ tx ∈ txs, p ∈ txContribution contractAddress target parser tx := by
  rw [handlerPure_eq] at h
  rcases List.mem_flatten.mp h with ⟨l, hl, hpl⟩
  rcases List.mem_map.mp hl with ⟨tx, htx, rfl⟩
  exact ⟨tx, htx, hpl⟩

theorem keepEvent_some {T : Type} {contractAddress target : String}
    {parser : List EventAttribute → Option T} {tx : TxResponse} {p : Nat × Event}
    {b : T × LogMeta} (h : keepEvent contractAddress target parser tx p = some b) :
    (p.2.kind == target) = true ∧ parser p.2.attributes = some b.1 ∧
      b.2 = mkMeta contractAddress tx p.1 := by
  by_cases hk : (p.2.kind == target) = true
  · simp only [keepEvent, hk, if_true] at h
    rcases Option.map_eq_some'.mp h with ⟨msg, hp, hb⟩
    refine ⟨hk, ?_, ?_⟩
    · rw [hp, ← hb]
    · rw [← hb]
  · simp [keepEvent, hk] at h

/-- Every pair in a transaction's contribution records that transaction's
position and identity, the zero block hash, and a kept event at the
recorded log index. -/
theorem mem_txContribution {T : Type} {contractAddress target : String}
    {parser : List EventAttribute → Option T} {tx : TxResponse}
    {msg : T} {meta : LogMeta}
    (h : (msg, meta) ∈ txContribution contractAddress target parser tx) :
    codeIsErr tx.tx_result.code = false ∧
      meta.address = bech32_decode contractAddress ∧
      meta.block_number = tx.height ∧
      meta.block_hash = 0 ∧
      meta.transaction_id = h256_to_h512 tx.hash ∧
      meta.transaction_index = tx.index ∧
      ∃ ev, tx.tx_result.events[meta.log_index]? = some ev ∧
        (ev.kind == target) = true ∧ parser ev.attributes = some msg := by
  have hcode : codeIsErr tx.tx_result.code = false := by
    cases hc : codeIsErr tx.tx_result.code with
    | false => rfl
    | true => rw [txContribution_err contractAddress target parser tx hc] at h; simp at h
  rw [txContribution_eq contractAddress target parser tx hcode] at h
  rcases List.mem_filterMap.mp h with ⟨p, hpmem, hkeep⟩
  rcases keepEvent_some hkeep with ⟨hk, hparse, hmeta⟩
  have hmeta' : meta = mkMeta contractAddress tx p.1 := hmeta
  have hget : tx.tx_result.events[p.1]? = some p.2 := by
    have := List.mem_enum_iff_getElem?.mp hpmem
    simpa using this
  have hli : meta.log_index = p.1 := by rw [hmeta']; rfl
  have hparse' : parser p.2.attributes = some msg := hparse
  refine ⟨hcode, by rw [hmeta']; rfl, by rw [hmeta']; rfl, by rw [hmeta']; rfl,
    by rw [hmeta']; rfl, by rw [hmeta']; rfl, p.2, ?_, hk, hparse'⟩
  rw [hli]; exact hget

/-! ### Ordering of the accumulated pairs -/

theorem mem_enumFrom_le {α : Type} {x : Nat × α} :
    ∀ {n : Nat} {l : List α}, x ∈ l.enumFrom n → n ≤ x.1 := by
  intro n l
  induction l generalizing n with
  | nil => intro h; simp at h
  | cons a as ih =>
    intro h
    rw [List.enumFrom_cons] at h
    rcases List.mem_cons.mp h with h | h
    · rw [h]
    · exact Nat.le_of_succ_le (ih h)

theorem pairwise_enumFrom {α : Type} :
    ∀ (l : List α) (n : Nat), (l.enumFrom n).Pairwise (fun a b => a.1 < b.1) := by
  intro l
  induction l with
  | nil => intro n; simp
  | cons a as ih =>
    intro n
    rw [List.enumFrom_cons]
    exact List.Pairwise.cons (fun b hb => Nat.lt_of_succ_le (mem_enumFrom_le hb)) (ih (n + 1))

/-- Within one transaction, the kept pairs carry strictly increasing log
indices, hence strictly increasing composite keys. -/
theorem txContribution_pairwise {T : Type} (contractAddress target : String)
    (parser : List EventAttribute → Option T) (tx : TxResponse) :
    (txContribution contractAddress target parser tx).Pairwise
      (fun p q => metaKeyLT p.2 q.2) := by
  cases hc : codeIsErr tx.tx_result.code with
  | true => rw [txContribution_err contractAddress target parser tx hc]; exact List.Pairwise.nil
  | false =>
    rw [txContribution_eq contractAddress target parser tx hc]
    rw [List.pairwise_filterMap]
    have base : (tx.tx_result.events.enum).Pairwise (fun a b => a.1 < b.1) := by
      rw [List.enum_eq_enumFrom]
      exact pairwise_enumFrom tx.tx_result.events 0
    refine base.imp_of_mem ?_
    intro a b _ _ hab
    intro x hx y hy
    rcases keepEvent_some (Option.mem_def.mp hx) with ⟨_, _, hx2⟩
    rcases keepEvent_some (Option.mem_def.mp hy) with ⟨_, _, hy2⟩
    rw [hx2, hy2]
    exact Or.inr ⟨rfl, Or.inr ⟨rfl, hab⟩⟩

/-- Pairs coming from transactions that are strictly ordered by
execution order are strictly ordered by composite key. -/
theorem txContribution_cross {T : Type} {contractAddress target : String}
    {parser : List EventAttribute → Option T} {t1 t2 : TxResponse}
    (h12 : txKeyLT t1 t2) {p q : T × LogMeta}
    (hp : p ∈ txContribution contractAddress target parser t1)
    (hq : q ∈ txContribution contractAddress target parser t2) :
    metaKeyLT p.2 q.2 := by
  rcases p with ⟨pm, pmeta⟩
  rcases q with ⟨qm, qmeta⟩
  rcases mem_txContribution hp with ⟨_, _, hpb, _, _, hpi, _⟩
  rcases mem_txContribution hq with ⟨_, _, hqb, _, _, hqi, _⟩
  rcases h12 with h | ⟨he, hi⟩
  · exact Or.inl (by rw [hpb, hqb]; exact h)
  · exact Or.inr ⟨by rw [hpb, hqb, he], Or.inl (by rw [hpi, hqi]; exact hi)⟩

/-- The accumulated result of a page list whose transactions are strictly
ordered by execution order is strictly ordered by composite key. -/
theorem handlerPure_pairwise {T : Type} (contractAddress target : String)
    (parser : List EventAttribute → Option T) (txs : List TxResponse)
    (hs : txs.Pairwise txKeyLT) :
    (handlerPure contractAddress target parser txs).Pairwise
      (fun p q => metaKeyLT p.2 q.2) := by
  rw [handlerPure_eq]
  rw [List.pairwise_flatten]
  constructor
  · intro l hl
    rcases List.mem_map.mp hl with ⟨tx, _, rfl⟩
    exact txContribution_pairwise contractAddress target parser tx
  · rw [List.pairwise_map]
    refine hs.imp_of_mem ?_
    intro t1 t2 _ _ h12 x hx y hy
    exact txContribution_cross h12 hx hy

/-! ### Decomposition of `get_range_event_logs` over its pages -/

theorem runPages_eq {T : Type} (idx : CosmosWasmIndexer) (backend : Backend)
    (client : HttpClient) (query : Query) (contractAddress : String)
    (parser : List EventAttribute → Option T) (resp : Nat → TxSearchResponse)
    (hc : get_client idx = .ok client) :
    ∀ (pages : List Nat) (acc : List (T × LogMeta)),
      (∀ p ∈ pages,
        backend.tx_search client query false p PAGINATION_LIMIT .Ascending = .ok (resp p)) →
      runPages idx backend client query contractAddress parser pages acc =
        some (.ok (acc ++
          (pages.map (fun p =>
            handlerPure contractAddress (targetType idx) parser (resp p).txs)).flatten)) := by
  intro pages
  induction pages with
  | nil => intro acc _; simp [runPages]
  | cons p rest ih =>
    intro acc hp
    have h1 := hp p (List.mem_cons_self p rest)
    rw [runPages, h1]
    simp only [handler, hc]
    rw [ih (acc ++ handlerPure contractAddress (targetType idx) parser (resp p).txs)
      (fun q hq => hp q (List.mem_cons_of_mem p hq))]
    simp [List.append_assoc]

theorem get_range_eq_pages {T : Type} (idx : CosmosWasmIndexer) (backend : Backend)
    (range : Nat × Nat) (parser : List EventAttribute → Option T)
    (client : HttpClient) (contractAddress : String) (res1 : TxSearchResponse)
    (resp : Nat → TxSearchResponse)
    (hc : get_client idx = .ok client)
    (ha : get_contract_addr idx = .ok contractAddress)
    (h1 : backend.tx_search client (mkQuery range idx.event_type contractAddress)
      false 1 PAGINATION_LIMIT .Ascending = .ok res1)
    (hp : ∀ p ∈ pagesList res1.total_count,
      backend.tx_search client (mkQuery range idx.event_type contractAddress)
        false p PAGINATION_LIMIT .Ascending = .ok (resp p)) :
    get_range_event_logs idx backend range parser =
      some (.ok (handlerPure contractAddress (targetType idx) parser res1.txs ++
        ((pagesList res1.total_count).map (fun p =>
          handlerPure contractAddress (targetType idx) parser (resp p).txs)).flatten)) := by
  simp only [get_range_event_logs, hc, ha, h1, handler]
  exact runPages_eq idx backend client (mkQuery range idx.event_type contractAddress)
    contractAddress parser resp hc (pagesList res1.total_count) _ hp

theorem get_range_eq_flat {T : Type} (idx : CosmosWasmIndexer) (backend : Backend)
    (range : Nat × Nat) (parser : List EventAttribute → Option T)
    (client : HttpClient) (contractAddress : String) (res1 : TxSearchResponse)
    (resp : Nat → TxSearchResponse)
    (hc : get_client idx = .ok client)
    (ha : get_contract_addr idx = .ok contractAddress)
    (h1 : backend.tx_search client (mkQuery range idx.event_type contractAddress)
      false 1 PAGINATION_LIMIT .Ascending = .ok res1)
    (hp : ∀ p ∈ pagesList res1.total_count,
      backend.tx_search client (mkQuery range idx.event_type contractAddress)
        false p PAGINATION_LIMIT .Ascending = .ok (resp p)) :
    get_range_event_logs idx backend range parser =
      some (.ok (handlerPure contractAddress (targetType idx) parser
        (res1.txs ++
          ((pagesList res1.total_count).map (fun p => (resp p).txs)).flatten))) := by
  rw [get_range_eq_pages idx backend range parser client contractAddress res1 resp hc ha h1 hp]
  rw [handlerPure_append, handlerPure_flatten, List.map_map]
  rfl

/-! ### Concrete objects used by witnesses -/

/-- Sample well-formed configuration. -/
def sampleConf : ConnectionConf :=
  ConnectionConf.new "http://grpc.local" "http://rpc.local" "testchain" "osmo"

/-- Sample contract locator (protocol-form address 7 on domain 4). -/
def sampleLocator : ContractLocator := { domain := { id := 4 }, address := 7 }

/-- Sample indexer over the dispatch event subtype. -/
def sampleIdx : CosmosWasmIndexer :=
  CosmosWasmIndexer.new sampleConf sampleLocator "mailbox_dispatch"

/-- The client `get_client sampleIdx` builds. -/
def clientW : HttpClient := { url := "http://rpc.local", compat_mode := .V0_34 }

/-- Sample parser: recognizes exactly the events that carry at least one
attribute, returning the attribute count. -/
def demoParse : List EventAttribute → Option Nat :=
  fun attrs => match attrs with
  | [] => none
  | a :: rest => some (rest.length + 1 + a.value.length - a.value.length)

/-- An event of the target kind that `demoParse` accepts. -/
def eventA : Event :=
  { kind := "wasm-mailbox_dispatch", attributes := [{ key := "k", value := "v" }] }

/-- An event of the target kind that `demoParse` rejects. -/
def eventB : Event := { kind := "wasm-mailbox_dispatch", attributes := [] }

/-- An event of a foreign kind. -/
def eventC : Event := { kind := "transfer", attributes := [{ key := "k", value := "v" }] }

/-- Successful transaction in block 5, index 0. -/
def txW1 : TxResponse :=
  { hash := 11, height := 5, index := 0, tx_result := { code := 0, events := [eventA, eventB] } }

/-- Successful transaction in block 5, index 1. -/
def txW2 : TxResponse :=
  { hash := 12, height := 5, index := 1, tx_result := { code := 0, events := [eventA] } }

/-- Failed transaction in block 5, index 2: its event must never surface. -/
def txFail : TxResponse :=
  { hash := 13, height := 5, index := 2, tx_result := { code := 11, events := [eventA] } }

/-- Backend serving one page holding `txW1` and `txW2`. -/
def backend1 : Backend :=
  { tx_search := fun _ _ _ page _ _ =>
      if page == 1 then .ok { txs := [txW1, txW2], total_count := 2 }
      else .error "no such page"
    latest_block := fun _ => .ok 42 }

/-- First-page response of `backend1`. -/
def res1W : TxSearchResponse := { txs := [txW1, txW2], total_count := 2 }

/-- Page responses of `backend1` beyond the first (never used: one page). -/
def respW : Nat → TxSearchResponse := fun _ => { txs := [], total_count := 2 }

/-- The two pairs `get_range_event_logs sampleIdx backend1` yields. -/
def outW : List (Nat × LogMeta) :=
  [ (1, { address := 7, block_number := 5, block_hash := 0, transaction_id := 11,
          transaction_index := 0, log_index := 0 }),
    (1, { address := 7, block_number := 5, block_hash := 0, transaction_id := 12,
          transaction_index := 1, log_index := 0 }) ]

/-! ### The claims -/

/-- Claim C1: every sequence returned successfully by
`get_range_event_logs`, for any block-height range and any parser, is
sorted in ascending order of the composite key
`(block_number, transaction_index, log_index)`, given a backend whose
paged ascending `tx_search` responses list transactions in on-chain
execution order. -/
theorem c1_result_sorted {T : Type} (idx : CosmosWasmIndexer) (backend : Backend)
    (range : Nat × Nat) (parser : List EventAttribute → Option T)
    (client : HttpClient) (contractAddress : String) (res1 : TxSearchResponse)
    (resp : Nat → TxSearchResponse) (out : List (T × LogMeta))
    (hc : get_client idx = .ok client)
    (ha : get_contract_addr idx = .ok contractAddress)
    (h1 : backend.tx_search client (mkQuery range idx.event_type contractAddress)
      false 1 PAGINATION_LIMIT .Ascending = .ok res1)
    (hp : ∀ p ∈ pagesList res1.total_count,
      backend.tx_search client (mkQuery range idx.event_type contractAddress)
        false p PAGINATION_LIMIT .Ascending = .ok (resp p))
    (hsorted : (res1.txs ++
      ((pagesList res1.total_count).map (fun p => (resp p).txs)).flatten).Pairwise txKeyLT)
    (hout : get_range_event_logs idx backend range parser = some (.ok out)) :
    out.Pairwise (fun p q => metaKeyLT p.2 q.2) := by
  have hdec := get_range_eq_flat idx backend range parser client contractAddress res1 resp
    hc ha h1 hp
  rw [hout] at hdec
  simp only [Option.some.injEq, Except.ok.injEq] at hdec
  rw [hdec]
  exact handlerPure_pairwise contractAddress (targetType idx) parser _ hsorted

/-- Witness for C1 at a concrete backend with two ordered transactions. -/
theorem c1_witness : outW.Pairwise (fun p q => metaKeyLT p.2 q.2) :=
  c1_result_sorted sampleIdx backend1 (5, 5) demoParse clientW "osmo1h" res1W respW outW
    rfl rfl rfl (by decide) (by decide) rfl

/-- Claim C2: a transaction whose execution outcome code is an error
contributes none of its events to the result of `get_range_event_logs`,
regardless of the other transactions: the returned sequence equals the one
computed from the fetched transactions with all failed ones deleted, and a
failed transaction's contribution is empty unconditionally. -/
theorem c2_failed_tx_excluded {T : Type} (idx : CosmosWasmIndexer) (backend : Backend)
    (range : Nat × Nat) (parser : List EventAttribute → Option T)
    (client : HttpClient) (contractAddress : String) (res1 : TxSearchResponse)
    (resp : Nat → TxSearchResponse)
    (hc : get_client idx = .ok client)
    (ha : get_contract_addr idx = .ok contractAddress)
    (h1 : backend.tx_search client (mkQuery range idx.event_type contractAddress)
      false 1 PAGINATION_LIMIT .Ascending = .ok res1)
    (hp : ∀ p ∈ pagesList res1.total_count,
      backend.tx_search client (mkQuery range idx.event_type contractAddress)
        false p PAGINATION_LIMIT .Ascending = .ok (resp p)) :
    get_range_event_logs idx backend range parser =
      some (.ok (handlerPure contractAddress (targetType idx) parser
        ((res1.txs ++ ((pagesList res1.total_count).map (fun p => (resp p).txs)).flatten).filter
          (fun t => !codeIsErr t.tx_result.code)))) ∧
    ∀ tx, codeIsErr tx.tx_result.code = true →
      txContribution contractAddress (targetType idx) parser tx = [] := by
  constructor
  · rw [get_range_eq_flat idx backend range parser client contractAddress res1 resp hc ha h1 hp]
    rw [← handlerPure_filter_err]
  · intro tx h
    exact txContribution_err contractAddress (targetType idx) parser tx h

/-- Backend serving one page holding a failed transaction between two
successful ones. -/
def backendC2 : Backend :=
  { tx_search := fun _ _ _ page _ _ =>
      if page == 1 then .ok { txs := [txW1, txFail, txW2], total_count := 3 }
      else .error "no such page"
    latest_block := fun _ => .ok 42 }

/-- First-page response of `backendC2`. -/
def resC2 : TxSearchResponse := { txs := [txW1, txFail, txW2], total_count := 3 }

/-- Witness for C2: the failed transaction carries a decodable event of the
target kind, yet only the two successful transactions' events surface. -/
theorem c2_witness : get_range_event_logs sampleIdx backendC2 (5, 5) demoParse =
    some (.ok outW) := by
  have h := (c2_failed_tx_excluded sampleIdx backendC2 (5, 5) demoParse clientW "osmo1h"
    resC2 respW rfl rfl rfl (by decide)).1
  exact h.trans (by decide)

/-- Claim C3: `get_range_event_logs` issues its first `tx_search` with page
number 1 and page size 100, computes the number of pages as the ceiling of
the total match count divided by 100, fetches pages 2 through the last
sequentially in ascending page order with the identical query, and returns
the concatenation of the per-page results in page order. -/
theorem c3_pagination {T : Type} (idx : CosmosWasmIndexer) (backend : Backend)
    (range : Nat × Nat) (parser : List EventAttribute → Option T)
    (client : HttpClient) (contractAddress : String) (res1 : TxSearchResponse)
    (resp : Nat → TxSearchResponse)
    (hc : get_client idx = .ok client)
    (ha : get_contract_addr idx = .ok contractAddress)
    (h1 : backend.tx_search client (mkQuery range idx.event_type contractAddress)
      false 1 PAGINATION_LIMIT .Ascending = .ok res1)
    (hp : ∀ p ∈ pagesList res1.total_count,
      backend.tx_search client (mkQuery range idx.event_type contractAddress)
        false p PAGINATION_LIMIT .Ascending = .ok (resp p)) :
    get_range_event_logs idx backend range parser =
      some (.ok (handlerPure contractAddress (targetType idx) parser res1.txs ++
        ((pagesList res1.total_count).map (fun p =>
          handlerPure contractAddress (targetType idx) parser (resp p).txs)).flatten)) ∧
    lastPageOf res1.total_count
      = (res1.total_count + PAGINATION_LIMIT - 1) / PAGINATION_LIMIT ∧
    pagesList res1.total_count = List.range' 2 (lastPageOf res1.total_count - 1) ∧
    PAGINATION_LIMIT = 100 := by
  refine ⟨get_range_eq_pages idx backend range parser client contractAddress res1 resp
    hc ha h1 hp, ?_, rfl, rfl⟩
  unfold lastPageOf PAGINATION_LIMIT
  by_cases h : res1.total_count % 100 = 0
  · rw [if_neg (by simp [h])]
    omega
  · rw [if_pos (by simp [bne_iff_ne]; exact h)]
    omega

/-- A transaction with no events at all, for bulk pages. -/
def txZ : TxResponse :=
  { hash := 1, height := 1, index := 0, tx_result := { code := 0, events := [] } }

/-- First page of 100 matches out of 250. -/
def pageA : TxSearchResponse := { txs := List.replicate 100 txZ, total_count := 250 }

/-- Second page of 100 matches out of 250. -/
def pageB : TxSearchResponse := { txs := List.replicate 100 txZ, total_count := 250 }

/-- Third page of the remaining 50 matches out of 250. -/
def pageC : TxSearchResponse := { txs := List.replicate 50 txZ, total_count := 250 }

/-- Backend serving 250 matching transactions as pages of 100/100/50. -/
def backend250 : Backend :=
  { tx_search := fun _ _ _ page _ _ =>
      if page == 1 then .ok pageA
      else if page == 2 then .ok pageB
      else if page == 3 then .ok pageC
      else .error "beyond last page"
    latest_block := fun _ => .ok 1 }

/-- Pages of `backend250` beyond the first. -/
def resp250 : Nat → TxSearchResponse := fun p => if p == 2 then pageB else pageC

set_option maxRecDepth 100000 in
/-- Witness for C3: 250 matches yield a page count of 3 and the
concatenation of the three pages of 100/100/50 transactions. -/
theorem c3_witness : lastPageOf 250 = 3 ∧
    get_range_event_logs sampleIdx backend250 (1, 9) demoParse = some (.ok []) := by
  have h := c3_pagination sampleIdx backend250 (1, 9) demoParse clientW "osmo1h"
    pageA resp250 rfl rfl rfl (by decide)
  exact ⟨h.2.1.trans (by decide), h.1.trans (by decide)⟩

/-- Claim C4: every kept event is paired with a `LogMeta` whose
`block_number` is the transaction's block height, whose `transaction_id`
is the transaction's 256-bit hash widened to the 512-bit protocol width,
whose `transaction_index` is the transaction's index within its block,
whose `log_index` is the event's zero-based position within the
transaction's full event list, and whose `block_hash` is the zero-hash
sentinel. -/
theorem c4_logmeta_fields {T : Type} (idx : CosmosWasmIndexer) (backend : Backend)
    (range : Nat × Nat) (parser : List EventAttribute → Option T)
    (client : HttpClient) (contractAddress : String) (res1 : TxSearchResponse)
    (resp : Nat → TxSearchResponse) (out : List (T × LogMeta))
    (hc : get_client idx = .ok client)
    (ha : get_contract_addr idx = .ok contractAddress)
    (h1 : backend.tx_search client (mkQuery range idx.event_type contractAddress)
      false 1 PAGINATION_LIMIT .Ascending = .ok res1)
    (hp : ∀ p ∈ pagesList res1.total_count,
      backend.tx_search client (mkQuery range idx.event_type contractAddress)
        false p PAGINATION_LIMIT .Ascending = .ok (resp p))
    (hout : get_range_event_logs idx backend range parser = some (.ok out))
    (msg : T) (meta : LogMeta) (hm : (msg, meta) ∈ out) :
    ∃ tx ∈ res1.txs ++ ((pagesList res1.total_count).map (fun p => (resp p).txs)).flatten,
      codeIsErr tx.tx_result.code = false ∧
      meta.block_number = tx.height ∧
      meta.transaction_id = h256_to_h512 tx.hash ∧
      (tx.hash < 2 ^ 256 → meta.transaction_id = tx.hash) ∧
      meta.transaction_index = tx.index ∧
      meta.block_hash = 0 ∧
      ∃ ev, tx.tx_result.events[meta.log_index]? = some ev ∧
        (ev.kind == targetType idx) = true ∧ parser ev.attributes = some msg := by
  have hdec := get_range_eq_flat idx backend range parser client contractAddress res1 resp
    hc ha h1 hp
  rw [hout] at hdec
  simp only [Option.some.injEq, Except.ok.injEq] at hdec
  rw [hdec] at hm
  rcases mem_handlerPure hm with ⟨tx, htx, hmem⟩
  rcases mem_txContribution hmem with
    ⟨hcode, _haddr, hbn, hbh, htid, htidx, ev, hev, hkind, hparse⟩
  refine ⟨tx, htx, hcode, hbn, htid, ?_, htidx, hbh, ev, hev, hkind, hparse⟩
  intro hlt
  rw [htid]
  exact Nat.mod_eq_of_lt hlt

/-- The metadata synthesized for the kept event of `txW1`. -/
def metaW1 : LogMeta :=
  { address := 7, block_number := 5, block_hash := 0, transaction_id := 11,
    transaction_index := 0, log_index := 0 }

/-- Witness for C4 at the kept pair `(1, metaW1)` of the concrete run over
`backend1`. -/
theorem c4_witness :
    ∃ tx ∈ res1W.txs ++ ((pagesList res1W.total_count).map (fun p => (respW p).txs)).flatten,
      codeIsErr tx.tx_result.code = false ∧
      metaW1.block_number = tx.height ∧
      metaW1.transaction_id = h256_to_h512 tx.hash ∧
      (tx.hash < 2 ^ 256 → metaW1.transaction_id = tx.hash) ∧
      metaW1.transaction_index = tx.index ∧
      metaW1.block_hash = 0 ∧
      ∃ ev, tx.tx_result.events[metaW1.log_index]? = some ev ∧
        (ev.kind == targetType sampleIdx) = true ∧ demoParse ev.attributes = some 1 :=
  c4_logmeta_fields sampleIdx backend1 (5, 5) demoParse clientW "osmo1h" res1W respW outW
    rfl rfl rfl (by decide) rfl 1 metaW1 (by decide)

/-- Backend whose every remote call fails. -/
def errBackend : Backend :=
  { tx_search := fun _ _ _ _ _ _ => .error "connection refused"
    latest_block := fun _ => .error "connection refused" }

/-- Backend with no matching transactions at all. -/
def emptyBackend : Backend :=
  { tx_search := fun _ _ _ _ _ _ => .ok { txs := [], total_count := 0 }
    latest_block := fun _ => .ok 7 }

/-- Counterexample to claim C5 as stated: over the reversed interval
`[5, 3]` the implementation still issues its first `tx_search` network
call, so against a backend whose calls fail, `get_range_event_logs`
returns that error instead of an empty sequence. -/
theorem c5_counterexample : 5 > 3 ∧
    get_range_event_logs sampleIdx errBackend (5, 3) demoParse
      = some (.error "connection refused") :=
  ⟨by decide, rfl⟩

/-- Claim C5 as amended: for every interval whose start exceeds its end,
`get_range_event_logs` returns an empty sequence rather than an error,
provided the `tx_search` calls it still makes succeed and return only
transactions within the query's height bounds. -/
theorem c5_empty_interval {T : Type} (idx : CosmosWasmIndexer) (backend : Backend)
    (range : Nat × Nat) (parser : List EventAttribute → Option T)
    (client : HttpClient) (contractAddress : String)
    (hc : get_client idx = .ok client)
    (ha : get_contract_addr idx = .ok contractAddress)
    (hb : ∀ page, ∃ resp,
      backend.tx_search client (mkQuery range idx.event_type contractAddress)
        false page PAGINATION_LIMIT .Ascending = .ok resp ∧
      ∀ tx ∈ resp.txs, range.1 ≤ tx.height ∧ tx.height ≤ range.2)
    (hrev : range.2 < range.1) :
    get_range_event_logs idx backend range parser = some (.ok []) := by
  classical
  choose resp hresp hbound using hb
  have hempty : ∀ page, (resp page).txs = [] := by
    intro page
    cases hte : (resp page).txs with
    | nil => rfl
    | cons t ts =>
      exfalso
      have hbt := hbound page t (by rw [hte]; exact List.mem_cons_self t ts)
      omega
  have hdec := get_range_eq_flat idx backend range parser client contractAddress (resp 1) resp
    hc ha (hresp 1) (fun p _ => hresp p)
  rw [hdec]
  have hflat : ((pagesList (resp 1).total_count).map (fun p => (resp p).txs)).flatten = [] := by
    rw [List.flatten_eq_nil_iff]
    intro l hl
    rcases List.mem_map.mp hl with ⟨p, _, rfl⟩
    exact hempty p
  rw [hempty 1, hflat]
  rfl

/-- Witness for the amended C5: a healthy backend with no matches yields
the empty sequence over the reversed interval `[5, 3]`. -/
theorem c5_witness : get_range_event_logs sampleIdx emptyBackend (5, 3) demoParse
    = some (.ok []) :=
  c5_empty_interval sampleIdx emptyBackend (5, 3) demoParse clientW "osmo1h" rfl rfl
    (fun _ => ⟨{ txs := [], total_count := 0 }, rfl, by simp⟩) (by decide)

/-- Two backends that agree on `tx_search` at a fixed query drive the page
loop identically. -/
theorem runPages_congr {T : Type} (idx : CosmosWasmIndexer) (b1 b2 : Backend)
    (client : HttpClient) (query : Query) (contractAddress : String)
    (parser : List EventAttribute → Option T)
    (hagree : ∀ pv page pp ord,
      b1.tx_search client query pv page pp ord = b2.tx_search client query pv page pp ord) :
    ∀ (pages : List Nat) (acc : List (T × LogMeta)),
      runPages idx b1 client query contractAddress parser pages acc
        = runPages idx b2 client query contractAddress parser pages acc := by
  intro pages
  induction pages with
  | nil => intro acc; rfl
  | cons p rest ih =>
    intro acc
    rw [runPages, runPages, hagree]
    cases hres : b2.tx_search client query false p PAGINATION_LIMIT .Ascending with
    | error e => simp only [hres]
    | ok res =>
      simp only [hres]
      cases hh : handler idx contractAddress parser res.txs with
      | none => simp only [hh]
      | some r =>
        simp only [hh]
        exact ih (acc ++ r)

/-- Configuration carrying the invalid (empty) address prefix. -/
def badConf : ConnectionConf :=
  ConnectionConf.new "http://grpc.local" "http://rpc.local" "testchain" ""

/-- Indexer constructed over the invalid prefix: `new` still succeeds. -/
def badIdx : CosmosWasmIndexer :=
  CosmosWasmIndexer.new badConf sampleLocator "mailbox_dispatch"

/-- Counterexample to claim C6 as stated: the prefix is not validated at
construction time.  `CosmosWasmIndexer::new` accepts the invalid empty
prefix and stores it untouched, and the conversion failure surfaces only
when a query is issued. -/
theorem c6_counterexample :
    (CosmosWasmIndexer.new badConf sampleLocator "mailbox_dispatch").conf.get_hrp = "" ∧
    get_contract_addr badIdx
      = .error "bech32 encode failed: invalid human readable part" ∧
    get_range_event_logs badIdx emptyBackend (1, 2) demoParse
      = some (.error "bech32 encode failed: invalid human readable part") :=
  ⟨rfl, rfl, rfl⟩

/-- Claim C6 as amended: the contract address is converted with the
connection's configured prefix inside each `get_range_event_logs` call
(not at construction), the converted text is the only contract-address
match value any issued `tx_search` ever carries, and the prefix is not
validated at construction: `CosmosWasmIndexer::new` is infallible and an
invalid prefix surfaces as an error only when a query is issued. -/
theorem c6_conversion_at_query_time :
    (∀ (conf : ConnectionConf) (locator : ContractLocator) (et : String),
      get_contract_addr (CosmosWasmIndexer.new conf locator et)
        = digest_to_addr locator.address conf.get_hrp) ∧
    (∀ {T : Type} (conf : ConnectionConf) (locator : ContractLocator) (et : String)
        (backend : Backend) (range : Nat × Nat) (parser : List EventAttribute → Option T)
        (client : HttpClient) (e : String),
      get_client (CosmosWasmIndexer.new conf locator et) = .ok client →
      digest_to_addr locator.address conf.get_hrp = .error e →
      get_range_event_logs (CosmosWasmIndexer.new conf locator et) backend range parser
        = some (.error e)) ∧
    (∀ {T : Type} (idx : CosmosWasmIndexer) (b1 b2 : Backend) (range : Nat × Nat)
        (parser : List EventAttribute → Option T) (client : HttpClient)
        (contractAddress : String),
      get_client idx = .ok client →
      get_contract_addr idx = .ok contractAddress →
      (∀ pv page pp ord,
        b1.tx_search client (mkQuery range idx.event_type contractAddress) pv page pp ord
          = b2.tx_search client (mkQuery range idx.event_type contractAddress) pv page pp ord) →
      get_range_event_logs idx b1 range parser = get_range_event_logs idx b2 range parser) := by
  refine ⟨fun conf locator et => rfl, ?_, ?_⟩
  · intro T conf locator et backend range parser client e hc hd
    have hd' : get_contract_addr (CosmosWasmIndexer.new conf locator et) = .error e := hd
    simp only [get_range_event_logs, hc, hd']
  · intro T idx b1 b2 range parser client contractAddress hc ha hagree
    simp only [get_range_event_logs, hc, ha]
    rw [hagree]
    cases hres : b2.tx_search client (mkQuery range idx.event_type contractAddress)
        false 1 PAGINATION_LIMIT .Ascending with
    | error e => simp only [hres]
    | ok res =>
      simp only [hres]
      cases hh : handler idx contractAddress parser res.txs with
      | none => simp only [hh]
      | some r =>
        simp only [hh]
        exact runPages_congr idx b1 b2 client (mkQuery range idx.event_type contractAddress)
          contractAddress parser hagree (pagesList res.total_count) r

/-- A backend agreeing with `emptyBackend` on `tx_search` but not on
`latest_block`. -/
def emptyBackend2 : Backend :=
  { tx_search := fun _ _ _ _ _ _ => .ok { txs := [], total_count := 0 }
    latest_block := fun _ => .ok 99 }

/-- Witness for the amended C6, instantiating each of its three parts. -/
theorem c6_witness :
    get_contract_addr sampleIdx = digest_to_addr 7 "osmo" ∧
    get_range_event_logs badIdx errBackend (1, 2) demoParse
      = some (.error "bech32 encode failed: invalid human readable part") ∧
    get_range_event_logs sampleIdx emptyBackend (1, 2) demoParse
      = get_range_event_logs sampleIdx emptyBackend2 (1, 2) demoParse := by
  obtain ⟨h1, h2, h3⟩ := c6_conversion_at_query_time
  exact ⟨h1 sampleConf sampleLocator "mailbox_dispatch",
    h2 badConf sampleLocator "mailbox_dispatch" errBackend (1, 2) demoParse clientW _ rfl rfl,
    h3 sampleIdx emptyBackend emptyBackend2 (1, 2) demoParse clientW "osmo1h" rfl rfl
      (fun _ _ _ _ => rfl)⟩

/-- Claim C7: within each successful transaction, exactly the events whose
kind equals `"wasm-"` concatenated with the configured event type are
kept, the caller-supplied parser is applied to each kept event's attribute
list, and an event whose parse yields no value is silently dropped with no
effect on the other events. -/
theorem c7_keep_filter {T : Type} (idx : CosmosWasmIndexer) (contractAddress : String)
    (parser : List EventAttribute → Option T) (tx : TxResponse)
    (h : codeIsErr tx.tx_result.code = false) :
    targetType idx = "wasm-" ++ idx.event_type ∧
    txContribution contractAddress (targetType idx) parser tx =
      tx.tx_result.events.enum.filterMap (fun p =>
        if p.2.kind == targetType idx then
          (parser p.2.attributes).map (fun msg => (msg, mkMeta contractAddress tx p.1))
        else none) :=
  ⟨rfl, txContribution_eq contractAddress (targetType idx) parser tx h⟩

/-- Transaction carrying a kept event, a dropped (unparseable) event of the
target kind, and a foreign-kind event. -/
def txW7 : TxResponse :=
  { hash := 21, height := 6, index := 0,
    tx_result := { code := 0, events := [eventA, eventB, eventC] } }

/-- Witness for C7: of the three events only the first is kept; the
unparseable one and the foreign-kind one are dropped silently. -/
theorem c7_witness :
    targetType sampleIdx = "wasm-mailbox_dispatch" ∧
    txContribution "osmo1h" (targetType sampleIdx) demoParse txW7
      = [(1, mkMeta "osmo1h" txW7 0)] := by
  have h := c7_keep_filter sampleIdx "osmo1h" demoParse txW7 rfl
  exact ⟨h.1.trans (by decide), h.2.trans (by decide)⟩

/-- Claim C8: constructing a `ConnectionConf` from raw configuration fails
with a distinct, named error for each missing required field and with a
distinct error carrying the offending URL string and the parse cause for a
syntactically invalid URL; each error's message names the offending
field. -/
theorem c8_fromRawConf_errors :
    (∀ g c p, ConnectionConf.fromRawConf none g c p = .error .MissingConnectionRpcUrl) ∧
    (∀ r c p, ConnectionConf.fromRawConf (some r) none c p
      = .error .MissingConnectionGrpcUrl) ∧
    (∀ r g p, ConnectionConf.fromRawConf (some r) (some g) none p
      = .error .MissingChainId) ∧
    (∀ r g c, ConnectionConf.fromRawConf (some r) (some g) (some c) none
      = .error .MissingHrp) ∧
    (∀ r g c p cause, parseUrl r = .error cause →
      ConnectionConf.fromRawConf (some r) (some g) (some c) (some p)
        = .error (.InvalidConnectionUrl r cause)) ∧
    (∀ u cause, (ConnectionConfError.InvalidConnectionUrl u cause).message
      = "Invalid `url` for connection configuration: `" ++ u ++ "` (" ++ cause ++ ")") ∧
    ([ConnectionConfError.MissingConnectionRpcUrl.message,
      ConnectionConfError.MissingConnectionGrpcUrl.message,
      ConnectionConfError.MissingChainId.message,
      ConnectionConfError.MissingHrp.message].Pairwise (fun a b => (a == b) = false)) ∧
    containsSeg ConnectionConfError.MissingConnectionRpcUrl.message.data "rpc_url".data
      = true ∧
    containsSeg ConnectionConfError.MissingConnectionGrpcUrl.message.data "grpc_url".data
      = true ∧
    containsSeg ConnectionConfError.MissingChainId.message.data "chainId".data = true ∧
    containsSeg ConnectionConfError.MissingHrp.message.data "prefix".data = true := by
  refine ⟨fun g c p => rfl, fun r c p => rfl, fun r g p => rfl, fun r g c => rfl,
    ?_, fun u cause => rfl, by decide, by decide, by decide, by decide, by decide⟩
  intro r g c p cause h
  simp [ConnectionConf.fromRawConf, h]

/-- Witness for C8 applying the missing-field and invalid-URL cases at
concrete raw configurations. -/
theorem c8_witness :
    ConnectionConf.fromRawConf none (some "http://g") (some "chain") (some "osmo")
      = .error .MissingConnectionRpcUrl ∧
    ConnectionConf.fromRawConf (some "notaurl") (some "http://g") (some "chain") (some "osmo")
      = .error (.InvalidConnectionUrl "notaurl" "relative URL without a base: notaurl") := by
  obtain ⟨h1, _, _, _, h5, _⟩ := c8_fromRawConf_errors
  exact ⟨h1 (some "http://g") (some "chain") (some "osmo"),
    h5 "notaurl" "http://g" "chain" "osmo" _ rfl⟩

/-- Claim C9: `latest_block_height` returns the node-reported chain head
height reduced modulo `2 ^ 32`; below `2 ^ 32` the height is returned
exactly, at or above `2 ^ 32` it silently wraps instead of failing. -/
theorem c9_latest_height_wraps (idx : CosmosWasmIndexer) (backend : Backend)
    (client : HttpClient) (h : Nat)
    (hc : get_client idx = .ok client)
    (hb : backend.latest_block client = .ok h) :
    latest_block_height idx backend = .ok (h % 2 ^ 32) ∧
    (h < 2 ^ 32 → latest_block_height idx backend = .ok h) := by
  have h1 : latest_block_height idx backend = .ok (h % 2 ^ 32) := by
    simp [latest_block_height, hc, hb]
  refine ⟨h1, fun hlt => ?_⟩
  rw [h1, Nat.mod_eq_of_lt hlt]

/-- Backend whose head height overflows 32 bits. -/
def bigBackend : Backend :=
  { tx_search := fun _ _ _ _ _ _ => .ok { txs := [], total_count := 0 }
    latest_block := fun _ => .ok (2 ^ 32 + 5) }

/-- Witness for C9: a head height of `2 ^ 32 + 5` silently wraps to 5. -/
theorem c9_witness : latest_block_height sampleIdx bigBackend = .ok 5 := by
  have h := (c9_latest_height_wraps sampleIdx bigBackend clientW (2 ^ 32 + 5) rfl rfl).1
  rw [h]
  norm_num

/-- The page loop can never panic once a client handle exists. -/
theorem runPages_isSome {T : Type} (idx : CosmosWasmIndexer) (backend : Backend)
    (client : HttpClient) (query : Query) (contractAddress : String)
    (parser : List EventAttribute → Option T) (client' : HttpClient)
    (hc : get_client idx = .ok client') :
    ∀ (pages : List Nat) (acc : List (T × LogMeta)),
      (runPages idx backend client query contractAddress parser pages acc).isSome = true := by
  intro pages
  induction pages with
  | nil => intro acc; rfl
  | cons p rest ih =>
    intro acc
    rw [runPages]
    cases backend.tx_search client query false p PAGINATION_LIMIT .Ascending with
    | error e => rfl
    | ok res =>
      simp only [handler, hc]
      exact ih (acc ++ handlerPure contractAddress (targetType idx) parser res.txs)

/-- Claim C10: the `unwrap` on the client re-construction inside the
per-page handler never panics, because `get_client` is a deterministic
function of the indexer's immutable configuration and the handler only
runs after the initial `get_client` call succeeded; client-construction
failure surfaces only as a returned error, never as a panic. -/
theorem c10_no_panic {T : Type} (idx : CosmosWasmIndexer) (backend : Backend)
    (range : Nat × Nat) (parser : List EventAttribute → Option T) :
    (get_range_event_logs idx backend range parser).isSome = true ∧
    (∀ e, get_client idx = .error e →
      get_range_event_logs idx backend range parser = some (.error e)) := by
  constructor
  · cases hc : get_client idx with
    | error e => simp [get_range_event_logs, hc]
    | ok client =>
      cases ha : get_contract_addr idx with
      | error e => simp [get_range_event_logs, hc, ha]
      | ok contractAddress =>
        cases h1 : backend.tx_search client (mkQuery range idx.event_type contractAddress)
            false 1 PAGINATION_LIMIT .Ascending with
        | error e => simp [get_range_event_logs, hc, ha, h1]
        | ok res =>
          simp only [get_range_event_logs, hc, ha, h1, handler]
          exact runPages_isSome idx backend client
            (mkQuery range idx.event_type contractAddress) contractAddress parser client hc
            (pagesList res.total_count) _
  · intro e hc
    simp [get_range_event_logs, hc]

/-- Configuration whose RPC url fails to parse. -/
def badUrlConf : ConnectionConf :=
  ConnectionConf.new "http://grpc.local" "notaurl" "testchain" "osmo"

/-- Indexer whose `get_client` fails. -/
def badUrlIdx : CosmosWasmIndexer :=
  CosmosWasmIndexer.new badUrlConf sampleLocator "mailbox_dispatch"

/-- Witness for C10: with an unparseable RPC url the call returns the
construction error and does not panic. -/
theorem c10_witness :
    (get_range_event_logs badUrlIdx emptyBackend (1, 2) demoParse).isSome = true ∧
    get_range_event_logs badUrlIdx emptyBackend (1, 2) demoParse
      = some (.error "relative URL without a base: notaurl") := by
  have h := c10_no_panic badUrlIdx emptyBackend (1, 2) demoParse
  exact ⟨h.1, h.2 "relative URL without a base: notaurl" rfl⟩

end HyperlaneCosmos
